import Mathlib

/-!
Verification of the typed CQRS dispatch layer, structured logger and in-memory
command-bus test double of the `nestjs_template_hive_pattern` repository.

The TypeScript sources are shallowly embedded: JavaScript runtime values are
modelled by `JsValue` (with a `Heap` so that cyclic object graphs are
representable), promise outcomes by `Except JsValue JsValue` (rejection value /
resolution value), and thrown runtime exceptions by `Except JsErr`.  Each
embedded definition mirrors one source function and is documented with its
source location.
-/

/-! ## JavaScript value model -/

/-- A JavaScript runtime value.  Objects either appear inline (`obj`, used for
freshly constructed object literals, which are necessarily acyclic) or as a
reference (`ref`) into a `Heap`, which allows cyclic object graphs.
`ctorName` models `x.constructor.name`; `isError` models `x instanceof Error`. -/
inductive JsValue where
  | undefined
  | nul
  | bool (b : Bool)
  | num (n : Int)
  | str (s : String)
  | obj (ctorName : String) (isError : Bool) (fields : List (String × JsValue))
  | ref (addr : Nat)

/-- A heap-allocated JavaScript object. -/
structure JsObject where
  ctorName : String
  isError : Bool
  fields : List (String × JsValue)

/-- A heap: finite map from addresses to objects. -/
abbrev Heap := List (Nat × JsObject)

/-- A thrown JavaScript exception.  `outOfFuel` is a model artifact of the
fuelled `JSON.stringify` recursion and never corresponds to a real runtime
exception; theorems about successful runs only assume `.ok` results, and the
concrete counterexamples below produce a genuine `typeError`. -/
inductive JsErr where
  | typeError (msg : String)
  | outOfFuel

/-- View a value as an object: inline objects directly, references through the
heap.  Primitives (and dangling references, which cannot arise in JS) are not
objects. -/
def derefObj (h : Heap) : JsValue → Option JsObject
  | .obj c e f => some ⟨c, e, f⟩
  | .ref a => h.lookup a
  | _ => none

/-- `v` is an object (JS `typeof v === 'object' && v !== null`, restricted to
the modelled subset). -/
def isJsObject (h : Heap) (v : JsValue) : Bool :=
  (derefObj h v).isSome

/-- Field lookup on an object's field list; a missing property reads as
`undefined` in JS. -/
def lookupField (fields : List (String × JsValue)) (k : String) : JsValue :=
  (fields.lookup k).getD .undefined

/-- Property read `v.k`.  On primitives this models boxed access (yielding
`undefined` for the keys used by the sources).  The sources only read
properties of values that are non-nullish (by their static types or an
explicit `?.` guard), so the `none` branch for `null`/`undefined` — which
would throw in JS — is never exercised by the theorems below. -/
def getProp (h : Heap) (v : JsValue) (k : String) : JsValue :=
  match derefObj h v with
  | some o => lookupField o.fields k
  | none => .undefined

/-- Optional-chained property read `v?.k`: `undefined` on nullish `v`. -/
def optChainProp (h : Heap) (v : JsValue) (k : String) : JsValue :=
  match v with
  | .undefined => .undefined
  | .nul => .undefined
  | v => getProp h v k

/-- `v instanceof Error`. -/
def isErrorInstance (h : Heap) (v : JsValue) : Bool :=
  match derefObj h v with
  | some o => o.isError
  | none => false

/-- `x.constructor.name`.  For `null`/`undefined` the JS expression throws;
the model returns `""` there and every theorem that mentions constructor
names restricts the relevant value to objects (`isJsObject`), matching the
sources' static types. -/
def ctorNameOf (h : Heap) : JsValue → String
  | .obj c _ _ => c
  | .ref a =>
    match h.lookup a with
    | some o => o.ctorName
    | none => ""
  | .num _ => "Number"
  | .str _ => "String"
  | .bool _ => "Boolean"
  | .undefined => ""
  | .nul => ""

/-- JavaScript truthiness: `undefined`, `null`, `false`, `0`, and `""` are
falsy; every object is truthy. -/
def isFalsy : JsValue → Bool
  | .undefined => true
  | .nul => true
  | .bool b => !b
  | .num n => n == 0
  | .str s => s == ""
  | _ => false

/-- `v` is `null` or `undefined`. -/
def isNullish : JsValue → Bool
  | .undefined => true
  | .nul => true
  | _ => false

/-- The `in` operator `k in v`: throws a `TypeError` when `v` is not an
object. -/
def jsIn (h : Heap) (k : String) (v : JsValue) : Except JsErr Bool :=
  match derefObj h v with
  | some o => .ok ((o.fields.lookup k).isSome)
  | none => .error (.typeError "Cannot use in operator to search in a non-object")

/-- `String(v)` / template-literal coercion for the modelled subset.  Error
instances use `Error.prototype.toString` (`name` or `name: message`); other
objects display as `[object Object]`. -/
def jsToDisplayString (h : Heap) (v : JsValue) : String :=
  match v with
  | .undefined => "undefined"
  | .nul => "null"
  | .bool b => if b then "true" else "false"
  | .num n => toString n
  | .str s => s
  | v =>
    match derefObj h v with
    | some o =>
      if o.isError then
        let name := jsErrorPartToString (lookupField o.fields "name") "Error"
        let msg := jsErrorPartToString (lookupField o.fields "message") ""
        if msg == "" then name else name ++ ": " ++ msg
      else "[object Object]"
    | none => "[object Object]"
where
  /-- Display of an error's `name`/`message` slot (strings expected). -/
  jsErrorPartToString (v : JsValue) (dflt : String) : String :=
    match v with
    | .str s => s
    | .undefined => dflt
    | _ => dflt

/-- Property assignment on a field list: overwrite in place if present, else
append (JS own-property assignment order). -/
def setProp (l : List (String × JsValue)) (k : String) (v : JsValue) :
    List (String × JsValue) :=
  if (l.lookup k).isSome then
    l.map (fun p => if p.1 = k then (p.1, v) else p)
  else l ++ [(k, v)]

/-- Object-spread semantics of `{...a, ...b}` on dup-free field lists: keys of
`a` in order with values overridden by `b` where present, then the keys of `b`
not already in `a`, in order. -/
def spreadMerge (a b : List (String × JsValue)) : List (String × JsValue) :=
  a.map (fun p => (p.1, (b.lookup p.1).getD p.2)) ++
    b.filter (fun p => (a.lookup p.1).isNone)

/-- The field list contributed by spreading a value into an object literal
(`{...v}`): objects contribute their fields, strings their indexed characters,
all other primitives nothing. -/
def spreadFields (h : Heap) : JsValue → List (String × JsValue)
  | .str s => s.toList.enum.map (fun p => (toString p.1, JsValue.str (String.singleton p.2)))
  | v =>
    match derefObj h v with
    | some o => o.fields
    | none => []

/-- Functional update `v.k = x` of an object value.  The sources mutate the
(freshly derived) `metadata` object; the model rebinds an updated copy, which
is observationally equivalent for the payload construction that follows.
Callers establish that `v` is an object beforehand (the preceding `in` check
throws otherwise), so the primitive branch is unreachable. -/
def jsSetProp (h : Heap) (v : JsValue) (k : String) (x : JsValue) : JsValue :=
  match derefObj h v with
  | some o => .obj o.ctorName o.isError (setProp o.fields k x)
  | none => v

/-! ## JSON.stringify -/

/-- Escapes a string for inclusion in JSON output (the escapes relevant to the
modelled subset). -/
def jsonEscapeChar (c : Char) : String :=
  match c with
  | '\\' => "\\\\"
  | '\"' => "\\\""
  | '\n' => "\\n"
  | '\t' => "\\t"
  | '\r' => "\\r"
  | c => String.singleton c

/-- A JSON string literal for `s`. -/
def jsonQuote (s : String) : String :=
  "\"" ++ String.join (s.toList.map jsonEscapeChar) ++ "\""

/-- Serialises an object's members in key order with the given member
serialiser, omitting `undefined`-valued members as `JSON.stringify` does. -/
def serializeFieldsWith (f : JsValue → Except JsErr (Option String)) :
    List (String × JsValue) → Except JsErr (List String)
  | [] => .ok []
  | (k, v) :: rest =>
    match f v with
    | .error e => .error e
    | .ok none => serializeFieldsWith f rest
    | .ok (some s) =>
      match serializeFieldsWith f rest with
      | .error e => .error e
      | .ok parts => .ok ((jsonQuote k ++ ":" ++ s) :: parts)

/-- `JSON.stringify` serialisation of one value.  `stack` holds the heap
addresses of the objects currently being serialised on the path from the
root; revisiting one of them is precisely JavaScript's circular-structure
`TypeError`.  `none` models `JSON.stringify` yielding `undefined` (for
`undefined` at the top level or as an omitted member).  The recursion is
fuelled, one unit per nesting level; the top-level wrapper supplies enough
fuel for every input considered here. -/
def jsonStringifyGo (h : Heap) : Nat → List Nat → JsValue → Except JsErr (Option String)
  | 0, _, _ => .error .outOfFuel
  | fuel + 1, stack, v =>
    match v with
    | .undefined => .ok none
    | .nul => .ok (some "null")
    | .bool b => .ok (some (if b then "true" else "false"))
    | .num n => .ok (some (toString n))
    | .str s => .ok (some (jsonQuote s))
    | .obj _ _ fs =>
      match serializeFieldsWith (fun v2 => jsonStringifyGo h fuel stack v2) fs with
      | .error e => .error e
      | .ok parts => .ok (some ("\x7b" ++ String.intercalate "," parts ++ "\x7d"))
    | .ref a =>
      if stack.contains a then
        .error (.typeError "Converting circular structure to JSON")
      else
        match h.lookup a with
        | none => .ok none
        | some o =>
          match serializeFieldsWith (fun v2 => jsonStringifyGo h fuel (a :: stack) v2) o.fields with
          | .error e => .error e
          | .ok parts => .ok (some ("\x7b" ++ String.intercalate "," parts ++ "\x7d"))

/-- Fuel for `jsonStringifyGo`: one unit per nesting level.  Cyclic paths
throw after at most `h.length` reference steps, and the constant term is an
ample allowance for the inline nesting depth of the values considered in this
development; exhausting it yields the `outOfFuel` artifact (real engines also
abort on extreme depth, with a stack-overflow `RangeError`), never a spurious
success, and the theorems below only ever assume successful serialisation. -/
def jsonFuel (h : Heap) : Nat :=
  h.length + 100

/-- `JSON.stringify(v)`.  Result `none` models the JS result `undefined`. -/
def jsonStringify (h : Heap) (v : JsValue) : Except JsErr (Option String) :=
  jsonStringifyGo h (jsonFuel h) [] v

/-! ## Typed command / query dispatchers
(`src/modules/shared/cqrs/command.ts`, `src/modules/shared/cqrs/query.ts`) -/

/-- One call made to `BaseLogger.error` (the dispatchers only ever log at
error level, by calling the `error` method).  `message`, `error` and
`optionalParams` are the three arguments of the call. -/
structure ErrorLogCall where
  message : JsValue
  error : JsValue
  optionalParams : JsValue

/-- `TypedCommandBus.execute` (command.ts lines 35–59).  `busResult` is the
settled outcome of `this.commandBus.execute(command)` (the underlying,
external dispatch mechanism); `redactSensitiveData` is the external redactor.
Returns the settled outcome of the wrapper together with the list of
`errorLogger.error` calls it makes. -/
def TypedCommandBus.execute (h : Heap) (redactSensitiveData : JsValue → JsValue)
    (busResult : Except JsValue JsValue) (command : JsValue) :
    Except JsValue JsValue × List ErrorLogCall :=
  match busResult with
  | .ok result => (.ok result, [])
  | .error e =>
    let commandName := ctorNameOf h command
    let correlationId := optChainProp h (getProp h command "props") "correlationId"
    if isErrorInstance h e then
      (.error e,
        [{ message := .str (commandName ++ " executionFailed"),
           error := e,
           optionalParams := .obj "Object" false
             [("data", .obj "Object" false
                [("commandName", .str commandName),
                 ("commandData", redactSensitiveData command)]),
              ("correlationId", correlationId)] }])
    else
      (.error e, [])

/-- `TypedQueryBus.execute` (query.ts lines 33–57); identical control flow to
the command bus, with `queryName`/`queryData` metadata keys. -/
def TypedQueryBus.execute (h : Heap) (redactSensitiveData : JsValue → JsValue)
    (busResult : Except JsValue JsValue) (query : JsValue) :
    Except JsValue JsValue × List ErrorLogCall :=
  match busResult with
  | .ok result => (.ok result, [])
  | .error e =>
    let queryName := ctorNameOf h query
    let correlationId := optChainProp h (getProp h query "props") "correlationId"
    if isErrorInstance h e then
      (.error e,
        [{ message := .str (queryName ++ " executionFailed"),
           error := e,
           optionalParams := .obj "Object" false
             [("data", .obj "Object" false
                [("queryName", .str queryName),
                 ("queryData", redactSensitiveData query)]),
              ("correlationId", correlationId)] }])
    else
      (.error e, [])

/-! ## Structured logger (`src/modules/logger/base/logger.ts`,
`src/config/logger.local.config.ts`) -/

/-- `getCloudWatchLevel` (logger.ts lines 14–29). -/
def getCloudWatchLevel (level : String) : String :=
  match level with
  | "fatal" => "FATAL"
  | "error" => "ERROR"
  | "warn" => "WARN"
  | "info" => "INFO"
  | "log" => "INFO"
  | _ => "DEBUG"

/-- The shape of the `LocalLoggerConfig` singleton
(logger.local.config.ts); theorems quantify over its contents since tests
reconfigure the allow/deny lists. -/
structure LocalLoggerConfig where
  enabledModules : List String
  disabledModules : List String
  showFullRequest : Bool
  moduleColors : List (String × String)
  showDataField : Bool
  showErrors : Bool

/-- The configuration value shipped in logger.local.config.ts. -/
def LocalLoggerConfig.shipped : LocalLoggerConfig :=
  { enabledModules := []
    disabledModules := []
    showFullRequest := false
    moduleColors := []
    showDataField := true
    showErrors := true }

/-- The state of a `BaseLogger` instance: its contextual `extraParams` object
and the `isLocal` flag (logger.ts lines 36–46; the wrapped pino sink and
`renameContext` carry no behaviour in the modelled methods). -/
structure BaseLogger where
  extraParams : List (String × JsValue)
  isLocal : Bool

/-- The ambient collaborators of the logger: the `LocalLoggerConfig`
singleton, the heap, the clock reading `new Date().toISOString()` produces,
and the external `chalk` styling library (a color-name-indexed family of
string transformers; `chalkNames` is the set of color methods `chalk`
exposes, used for the `chalk[colorName] || chalk.white` dynamic lookups). -/
structure LoggerEnv where
  cfg : LocalLoggerConfig
  heap : Heap
  now : String
  chalkNames : List String
  chalk : String → String → String

/-- `BaseLogger.createChild` (logger.ts lines 60–68): a new logger whose
context is `{...this.extraParams, ...context}` and whose `isLocal` is
inherited; the parent is not mutated (the model is functional, as is the
source, which only spreads into a fresh object). -/
def BaseLogger.createChild (l : BaseLogger) (context : List (String × JsValue)) :
    BaseLogger :=
  { extraParams := spreadMerge l.extraParams context
    isLocal := l.isLocal }

/-- `Array.includes` on a string array against an arbitrary value: strict
equality means a non-string value is never found. -/
def stringIncludes (l : List String) (v : JsValue) : Bool :=
  match v with
  | .str s => l.contains s
  | _ => false

/-- `BaseLogger.shouldLog` (logger.ts lines 73–92). -/
def BaseLogger.shouldLog (cfg : LocalLoggerConfig) (l : BaseLogger) : Bool :=
  if !l.isLocal then true
  else
    let moduleName := lookupField l.extraParams "moduleName"
    if isFalsy moduleName then true
    else if cfg.enabledModules.length > 0 then
      stringIncludes cfg.enabledModules moduleName
    else if cfg.disabledModules.length > 0 then
      !stringIncludes cfg.disabledModules moduleName
    else true

/-- Lines 99–102 of buildLogPayload: a string `optionalParams` becomes
`{module: optionalParams}`, a nullish one becomes `{}`, anything else is used
as-is. -/
def normalizeOptionalParams (optionalParams : JsValue) : JsValue :=
  match optionalParams with
  | .str s => .obj "Object" false [("module", .str s)]
  | .undefined => .obj "Object" false []
  | .nul => .obj "Object" false []
  | v => v

/-- Lines 107–117 of buildLogPayload (local-only request cleanup):
`metadata.request` is collapsed to `"METHOD url"` unless `showFullRequest`.
`'request' in metadata` throws on a primitive `metadata`, and the template
literal throws when `metadata.request` is nullish. -/
def localRequestCleanup (env : LoggerEnv) (l : BaseLogger) (metadata : JsValue) :
    Except JsErr JsValue :=
  if l.isLocal then
    match jsIn env.heap "request" metadata with
    | .error e => .error e
    | .ok hasReq =>
      if hasReq && !env.cfg.showFullRequest then
        let req := getProp env.heap metadata "request"
        match req with
        | .undefined => .error (.typeError "Cannot read properties of undefined")
        | .nul => .error (.typeError "Cannot read properties of null")
        | req =>
          .ok (jsSetProp env.heap metadata "request"
            (.str (jsToDisplayString env.heap (getProp env.heap req "method") ++ " " ++
              jsToDisplayString env.heap (getProp env.heap req "url"))))
      else .ok metadata
  else .ok metadata

/-- Line 125 of buildLogPayload: the `message` field of the payload literal,
`typeof message === 'string' ? message : JSON.stringify(message)`.  A
`JSON.stringify` result of JS `undefined` makes the field `undefined`. -/
def coerceMessage (h : Heap) (message : JsValue) : Except JsErr JsValue :=
  match message with
  | .str s => .ok (.str s)
  | m =>
    match jsonStringify h m with
    | .error e => .error e
    | .ok none => .ok .undefined
    | .ok (some s) => .ok (.str s)

/-- Lines 131–139 of buildLogPayload: for error-level records whose metadata
carries an `Error` under `error`, copy its stack, name and message onto the
payload.  The `&&` chain short-circuits, so `'error' in metadata` is only
evaluated at error level. -/
def errorStackBlock (env : LoggerEnv) (level : String) (metadata : JsValue)
    (payload : List (String × JsValue)) : Except JsErr (List (String × JsValue)) :=
  if level == "error" then
    match jsIn env.heap "error" metadata with
    | .error e => .error e
    | .ok hasErr =>
      let errv := getProp env.heap metadata "error"
      if hasErr && isErrorInstance env.heap errv then
        .ok (setProp (setProp (setProp payload
          "stack" (getProp env.heap errv "stack"))
          "errorName" (getProp env.heap errv "name"))
          "errorMessage" (getProp env.heap errv "message"))
      else .ok payload
  else .ok payload

/-- The `methodColors` table of buildLogPayload (lines 170–176). -/
def methodColors : List (String × String) :=
  [("GET", "green"), ("POST", "blue"), ("PUT", "yellow"),
   ("DELETE", "red"), ("PATCH", "magenta")]

/-- The dynamic `chalk[colorName] || chalk.white` lookup (lines 152–155 and
178–181). -/
def chalkDynamic (env : LoggerEnv) (colorName : String) (text : String) : String :=
  if env.chalkNames.contains colorName then env.chalk colorName text
  else env.chalk "white" text

/-- Lines 144–207 of buildLogPayload (local-only formatting): collapse the
payload into a single colored `msg` string plus optional `data`/`error`
fields. -/
def localFormat (env : LoggerEnv) (level : String)
    (payload : List (String × JsValue)) : List (String × JsValue) :=
  let moduleNameV := lookupField payload "moduleName"
  let parts1 : List String :=
    if !isFalsy moduleNameV then
      let mstr := jsToDisplayString env.heap moduleNameV
      let colorName :=
        match env.cfg.moduleColors.lookup mstr with
        | some c => if c == "" then "white" else c
        | none => "white"
      [chalkDynamic env colorName ("[" ++ mstr ++ "]")]
    else []
  let classNameV := lookupField payload "className"
  let parts2 : List String :=
    if !isFalsy classNameV then [env.chalk "gray" (jsToDisplayString env.heap classNameV)]
    else []
  let reqV := lookupField payload "request"
  let reqFmt : Option String :=
    match reqV with
    | .str s =>
      if s == "" then none
      else
        let pieces := s.splitOn " "
        let method := pieces.headD ""
        let url := String.intercalate " " pieces.tail
        let methodColor := ((methodColors.lookup method).getD "white")
        some (chalkDynamic env methodColor method ++ env.chalk "cyan" (" " ++ url))
    | _ => none
  let parts3 : List String := match reqFmt with | some p => [p] | none => []
  let payload' :=
    match reqFmt with
    | some _ => payload.filter (fun p => p.1 ≠ "request")
    | none => payload
  let parts := parts1 ++ parts2 ++ parts3
  let msgV : JsValue :=
    if parts.length > 0 then
      .str (String.intercalate " " (parts ++ [env.chalk "gray" "|"]) ++ " " ++
        jsToDisplayString env.heap (lookupField payload' "message"))
    else lookupField payload' "message"
  let result := [("msg", msgV)]
  let result :=
    if env.cfg.showDataField && (payload'.lookup "data").isSome then
      result ++ [("data", lookupField payload' "data")]
    else result
  let result :=
    if env.cfg.showErrors && level == "error" then
      if (payload'.lookup "error").isSome && !isFalsy (lookupField payload' "error") then
        result ++ [("error", lookupField payload' "error")]
      else result
    else result
  result

/-- `BaseLogger.buildLogPayload` (logger.ts lines 94–221): normalize
`optionalParams`, apply the local request cleanup, build the payload literal
`{timestamp, level, message, ...extraParams, ...metadata}`, add error stack
details, then either collapse to the local development shape or strip
null/undefined entries for the production shape. -/
def BaseLogger.buildLogPayload (env : LoggerEnv) (l : BaseLogger) (level : String)
    (message : JsValue) (optionalParams : JsValue) :
    Except JsErr (List (String × JsValue)) :=
  let metadata0 := normalizeOptionalParams optionalParams
  match localRequestCleanup env l metadata0 with
  | .error e => .error e
  | .ok metadata =>
    match coerceMessage env.heap message with
    | .error e => .error e
    | .ok msgV =>
      let payload :=
        spreadMerge
          (spreadMerge
            [("timestamp", .str env.now),
             ("level", .str (getCloudWatchLevel level)),
             ("message", msgV)]
            l.extraParams)
          (spreadFields env.heap metadata)
      match errorStackBlock env level metadata payload with
      | .error e => .error e
      | .ok payload' =>
        if l.isLocal then .ok (localFormat env level payload')
        else .ok (payload'.filter (fun p => !isNullish p.2))

/-- One record handed to the underlying pino sink: the sink method called
(`info`/`debug`/`warn`/`error`/`fatal`) and the payload passed to it. -/
structure Emission where
  sinkLevel : String
  payload : List (String × JsValue)

/-- `BaseLogger.log` (logger.ts lines 223–226): suppressed records produce no
emission (and no payload is built); otherwise one `info`-level sink call. -/
def BaseLogger.log (env : LoggerEnv) (l : BaseLogger)
    (message optionalParams : JsValue) : Except JsErr (List Emission) :=
  if !l.shouldLog env.cfg then .ok []
  else
    match l.buildLogPayload env "log" message optionalParams with
    | .error e => .error e
    | .ok p => .ok [⟨"info", p⟩]

/-- `BaseLogger.debug` (logger.ts lines 228–231). -/
def BaseLogger.debug (env : LoggerEnv) (l : BaseLogger)
    (message optionalParams : JsValue) : Except JsErr (List Emission) :=
  if !l.shouldLog env.cfg then .ok []
  else
    match l.buildLogPayload env "debug" message optionalParams with
    | .error e => .error e
    | .ok p => .ok [⟨"debug", p⟩]

/-- `BaseLogger.warn` (logger.ts lines 233–236). -/
def BaseLogger.warn (env : LoggerEnv) (l : BaseLogger)
    (message optionalParams : JsValue) : Except JsErr (List Emission) :=
  if !l.shouldLog env.cfg then .ok []
  else
    match l.buildLogPayload env "warn" message optionalParams with
    | .error e => .error e
    | .ok p => .ok [⟨"warn", p⟩]

/-- `BaseLogger.error` (logger.ts lines 238–251): merges
`{...optionalParams, error}` before building the payload. -/
def BaseLogger.error (env : LoggerEnv) (l : BaseLogger)
    (message errorArg optionalParams : JsValue) : Except JsErr (List Emission) :=
  if !l.shouldLog env.cfg then .ok []
  else
    let mergedParams : JsValue :=
      .obj "Object" false
        (spreadMerge (spreadFields env.heap optionalParams) [("error", errorArg)])
    match l.buildLogPayload env "error" message mergedParams with
    | .error e => .error e
    | .ok p => .ok [⟨"error", p⟩]

/-! ## In-memory command-bus test double
(`src/modules/shared/bus/in-memory-command-bus.ts`) -/

/-- The mutable state of an `InMemoryCommandBus` (lines 8–16).  A queued
entry is the settled outcome the next `execute` returns: `mockResolvedValueOnce`
enqueues a resolution, `mockRejectedValue` enqueues `Promise.reject(error)`,
which the `async` `execute` turns into a rejection when awaited.  Handlers
may themselves resolve or reject. -/
structure InMemoryCommandBus where
  executedCommands : List JsValue
  mockHandlers : List (String × (JsValue → Except JsValue JsValue))
  defaultResult : JsValue
  resultQueue : List (Except JsValue JsValue)

/-- A freshly constructed bus (field initialisers, lines 9–12). -/
def InMemoryCommandBus.new : InMemoryCommandBus :=
  { executedCommands := []
    mockHandlers := []
    defaultResult := .undefined
    resultQueue := [] }

/-- `InMemoryCommandBus.execute` (lines 23–41): track the command first, then
serve the front of the result queue if non-empty, else the per-type mock
handler, else the default result.  Returns the settled outcome and the
updated bus state. -/
def InMemoryCommandBus.execute (h : Heap) (s : InMemoryCommandBus)
    (command : JsValue) : Except JsValue JsValue × InMemoryCommandBus :=
  let s1 := { s with executedCommands := s.executedCommands ++ [command] }
  match s1.resultQueue with
  | r :: rest => (r, { s1 with resultQueue := rest })
  | [] =>
    let commandName := ctorNameOf h command
    match s1.mockHandlers.lookup commandName with
    | some handler => (handler command, s1)
    | none => (.ok s1.defaultResult, s1)

/-- `mockImplementation` (lines 48–54); the `Map.set` of the source is
modelled by a prepend, observationally the same for `Map.get`. -/
def InMemoryCommandBus.mockImplementation (s : InMemoryCommandBus)
    (commandTypeName : String) (handler : JsValue → Except JsValue JsValue) :
    InMemoryCommandBus :=
  { s with mockHandlers := (commandTypeName, handler) :: s.mockHandlers }

/-- `mockReturnValue` (lines 60–63). -/
def InMemoryCommandBus.mockReturnValue (s : InMemoryCommandBus) (value : JsValue) :
    InMemoryCommandBus :=
  { s with defaultResult := value }

/-- `mockResolvedValueOnce` (lines 125–128). -/
def InMemoryCommandBus.mockResolvedValueOnce (s : InMemoryCommandBus)
    (value : JsValue) : InMemoryCommandBus :=
  { s with resultQueue := s.resultQueue ++ [.ok value] }

/-- `mockRejectedValue` (lines 134–137): enqueues `Promise.reject(error)`. -/
def InMemoryCommandBus.mockRejectedValue (s : InMemoryCommandBus)
    (err : JsValue) : InMemoryCommandBus :=
  { s with resultQueue := s.resultQueue ++ [.error err] }

/-- `getExecutionCount` (lines 80–88): total when no type is given, else the
count of commands whose constructor name matches the class's name. -/
def InMemoryCommandBus.getExecutionCount (h : Heap) (s : InMemoryCommandBus)
    (commandTypeName : Option String) : Nat :=
  match commandTypeName with
  | none => s.executedCommands.length
  | some n => (s.executedCommands.filter (fun c => ctorNameOf h c == n)).length

/-- `getLastExecutedCommandOfType` (lines 108–119): the source scans the
history from the end and returns the first match, i.e. the first match of the
reversed history. -/
def InMemoryCommandBus.getLastExecutedCommandOfType (h : Heap)
    (s : InMemoryCommandBus) (commandTypeName : String) : Option JsValue :=
  s.executedCommands.reverse.find? (fun c => ctorNameOf h c == commandTypeName)

/-- Dispatches a sequence of commands in order, threading the bus state (each
call awaited before the next); the settled outcomes are discarded, which also
covers calls configured to reject. -/
def InMemoryCommandBus.runAll (h : Heap) (s : InMemoryCommandBus) :
    List JsValue → InMemoryCommandBus
  | [] => s
  | c :: cs => InMemoryCommandBus.runAll h (InMemoryCommandBus.execute h s c).2 cs

/-! ## Sample values used by witnesses -/

/-- A concrete `Error` instance (`new Error("boom")`). -/
def sampleError : JsValue :=
  .obj "Error" true
    [("name", .str "Error"), ("message", .str "boom"),
     ("stack", .str "Error: boom at handler")]

/-- A concrete command instance with a correlation id in its props. -/
def sampleCommand : JsValue :=
  .obj "CreateXCommand" false
    [("props", .obj "Object" false
      [("correlationId", .str "cid-1"), ("title", .str "t")])]

/-- A concrete query instance with a correlation id in its props. -/
def sampleQuery : JsValue :=
  .obj "GetXQuery" false
    [("props", .obj "Object" false [("correlationId", .str "cid-2")])]

/-- A concrete command instance without a `props` field. -/
def samplePropslessCommand : JsValue := .obj "NakedCommand" false []

/-- A concrete logger environment: shipped config, empty heap, fixed clock,
identity chalk. -/
def sampleEnv : LoggerEnv :=
  { cfg := LocalLoggerConfig.shipped, heap := [],
    now := "2026-02-03T04:05:06.000Z", chalkNames := [],
    chalk := fun _ t => t }

/-- A concrete production-mode parent logger with an `appName` and a field
`a` to be overridden by children. -/
def sampleParentLogger : BaseLogger :=
  { extraParams := [("appName", .str "api"), ("a", .num 0)], isLocal := false }

/-- A heap with a single object whose `self` field points back at itself:
`const x = {}; x.self = x`. -/
def circularHeap : Heap := [(0, ⟨"Object", false, [("self", .ref 0)]⟩)]

/-- A logger environment whose local config allow-list is `["moduleA"]`. -/
def sampleAllowListEnv : LoggerEnv :=
  { cfg := { LocalLoggerConfig.shipped with enabledModules := ["moduleA"] },
    heap := [], now := "2026-02-03T04:05:06.000Z", chalkNames := [],
    chalk := fun _ t => t }

/-- A local-mode parent logger carrying only an `appName`. -/
def sampleLocalParent : BaseLogger :=
  { extraParams := [("appName", .str "api")], isLocal := true }

/-! ## Theorems for the claims -/

/-- C1: for every command or query whose underlying bus execution rejects
with a value `E`, `TypedCommandBus.execute` / `TypedQueryBus.execute` reject
with exactly the same value `E` (the rejection is passed through unchanged by
the re-`throw`, never wrapped, translated or copied), whether or not `E` is
an `Error` instance.  The object-ness hypotheses reflect the static type of
commands/queries (`command.constructor.name` is read in the catch block). -/
theorem C1_failure_reraise_identity (h : Heap) (redact : JsValue → JsValue)
    (e cmd qry : JsValue)
    (hc : isJsObject h cmd = true) (hq : isJsObject h qry = true) :
    (TypedCommandBus.execute h redact (.error e) cmd).1 = .error e ∧
    (TypedQueryBus.execute h redact (.error e) qry).1 = .error e := by
  constructor <;>
    · simp only [TypedCommandBus.execute, TypedQueryBus.execute]
      split <;> rfl

/-- Witness for C1 at concrete inputs (a non-`Error` string rejection, the
case the claim singles out). -/
theorem C1_witness :
    isJsObject [] sampleCommand = true ∧
    isJsObject [] sampleQuery = true ∧
    (TypedCommandBus.execute [] id (.error (.str "boom")) sampleCommand).1 =
      .error (.str "boom") ∧
    (TypedQueryBus.execute [] id (.error (.str "boom")) sampleQuery).1 =
      .error (.str "boom") :=
  ⟨rfl, rfl,
    (C1_failure_reraise_identity [] id (.str "boom") sampleCommand sampleQuery
      rfl rfl).1,
    (C1_failure_reraise_identity [] id (.str "boom") sampleCommand sampleQuery
      rfl rfl).2⟩

/-- C4: for every command whose underlying bus execution resolves with a
value `V`, `TypedCommandBus.execute` resolves with exactly `V` (identity
pass-through) and makes no logger call. -/
theorem C4_success_identity_no_log (h : Heap) (redact : JsValue → JsValue)
    (v cmd : JsValue) :
    TypedCommandBus.execute h redact (.ok v) cmd = (.ok v, []) := rfl

/-- C3: for every command or query whose underlying bus execution rejects
with a value that is not an `instanceof Error`, the dispatchers emit zero
logger calls and still reject with the original value. -/
theorem C3_nonerror_rejection_unlogged (h : Heap) (redact : JsValue → JsValue)
    (e cmd qry : JsValue)
    (hc : isJsObject h cmd = true) (hq : isJsObject h qry = true)
    (he : isErrorInstance h e = false) :
    TypedCommandBus.execute h redact (.error e) cmd = (.error e, []) ∧
    TypedQueryBus.execute h redact (.error e) qry = (.error e, []) := by
  constructor <;> simp [TypedCommandBus.execute, TypedQueryBus.execute, he]

/-- Witness for C3: a plain-string rejection at concrete inputs. -/
theorem C3_witness :
    isJsObject [] sampleCommand = true ∧
    isErrorInstance [] (.str "plain failure") = false ∧
    TypedCommandBus.execute [] id (.error (.str "plain failure")) sampleCommand =
      (.error (.str "plain failure"), []) :=
  ⟨rfl, rfl,
    (C3_nonerror_rejection_unlogged [] id (.str "plain failure")
      sampleCommand sampleQuery rfl rfl rfl).1⟩

/-- C2: for every command whose underlying bus execution rejects with an
`instanceof Error` value, `TypedCommandBus.execute` makes exactly one call to
the error-level logger method before re-raising, with message
`"<CommandTypeName> executionFailed"`, the redacted command under
`data.commandData`, the constructor name under `data.commandName`, and the
`props.correlationId` of the command (which is `undefined` when `props` is
absent); analogously for `TypedQueryBus` with `data.queryData` /
`data.queryName`. -/
theorem C2_error_rejection_logged_once (h : Heap) (redact : JsValue → JsValue)
    (e cmd qry : JsValue)
    (hc : isJsObject h cmd = true) (hq : isJsObject h qry = true)
    (he : isErrorInstance h e = true) :
    TypedCommandBus.execute h redact (.error e) cmd =
      (.error e,
        [{ message := .str (ctorNameOf h cmd ++ " executionFailed"),
           error := e,
           optionalParams := .obj "Object" false
             [("data", .obj "Object" false
                [("commandName", .str (ctorNameOf h cmd)),
                 ("commandData", redact cmd)]),
              ("correlationId",
                optChainProp h (getProp h cmd "props") "correlationId")] }]) ∧
    TypedQueryBus.execute h redact (.error e) qry =
      (.error e,
        [{ message := .str (ctorNameOf h qry ++ " executionFailed"),
           error := e,
           optionalParams := .obj "Object" false
             [("data", .obj "Object" false
                [("queryName", .str (ctorNameOf h qry)),
                 ("queryData", redact qry)]),
              ("correlationId",
                optChainProp h (getProp h qry "props") "correlationId")] }]) ∧
    (getProp h cmd "props" = .undefined →
      optChainProp h (getProp h cmd "props") "correlationId" = .undefined) := by
  refine ⟨?_, ?_, ?_⟩
  · simp [TypedCommandBus.execute, he]
  · simp [TypedQueryBus.execute, he]
  · intro hp; rw [hp]; rfl

/-- Witness for C2: a concrete `Error` rejection for a command carrying
`correlationId: "cid-1"`, plus the props-less command logging an `undefined`
correlation id. -/
theorem C2_witness :
    isErrorInstance [] sampleError = true ∧
    TypedCommandBus.execute [] id (.error sampleError) sampleCommand =
      (.error sampleError,
        [{ message := .str "CreateXCommand executionFailed",
           error := sampleError,
           optionalParams := .obj "Object" false
             [("data", .obj "Object" false
                [("commandName", .str "CreateXCommand"),
                 ("commandData", sampleCommand)]),
              ("correlationId", .str "cid-1")] }]) ∧
    (TypedCommandBus.execute [] id (.error sampleError)
        samplePropslessCommand).2 =
      [{ message := .str "NakedCommand executionFailed",
         error := sampleError,
         optionalParams := .obj "Object" false
           [("data", .obj "Object" false
              [("commandName", .str "NakedCommand"),
               ("commandData", samplePropslessCommand)]),
            ("correlationId", .undefined)] }] := by
  refine ⟨rfl, ?_, ?_⟩
  · have := (C2_error_rejection_logged_once [] id sampleError
      sampleCommand sampleQuery rfl rfl rfl).1
    rw [this]; rfl
  · have := (C2_error_rejection_logged_once [] id sampleError
      samplePropslessCommand sampleQuery rfl rfl rfl).1
    rw [this]; rfl

/-! ## Helper lemmas for the in-memory bus -/

/-- `execute` appends the dispatched command to the history in every branch,
before any configured behavior (queued result, handler or default) runs. -/
theorem InMemoryCommandBus.execute_records (h : Heap) (s : InMemoryCommandBus)
    (c : JsValue) :
    ((InMemoryCommandBus.execute h s c).2).executedCommands =
      s.executedCommands ++ [c] := by
  cases hq : s.resultQueue with
  | cons r rest => simp [InMemoryCommandBus.execute, hq]
  | nil =>
    cases hh : s.mockHandlers.lookup (ctorNameOf h c) <;>
      simp [InMemoryCommandBus.execute, hq, hh]

/-- Running a whole command sequence appends it to the history, regardless of
the configured behaviors (including throwing ones). -/
theorem InMemoryCommandBus.runAll_executed (h : Heap) (cmds : List JsValue) :
    ∀ s : InMemoryCommandBus,
      (InMemoryCommandBus.runAll h s cmds).executedCommands =
        s.executedCommands ++ cmds := by
  induction cmds with
  | nil => intro s; simp [InMemoryCommandBus.runAll]
  | cons c cs ih =>
    intro s
    rw [InMemoryCommandBus.runAll, ih, InMemoryCommandBus.execute_records]
    simp

/-- The first match of a reversed list is the last match of the list. -/
theorem reverse_find?_eq_filter_getLast? {α : Type} (p : α → Bool) (l : List α) :
    l.reverse.find? p = (l.filter p).getLast? := by
  induction l using List.reverseRecOn with
  | nil => rfl
  | append_singleton xs x ih =>
    rw [List.reverse_append]
    simp only [List.reverse_singleton, List.singleton_append, List.find?_cons]
    rw [List.filter_append]
    by_cases hx : p x
    · simp only [hx, List.filter_cons, if_true, List.filter_nil, List.getLast?_concat]
    · simp only [hx, List.filter_cons, Bool.false_eq_true, if_false, List.filter_nil,
        List.append_nil]
      exact ih

/-- C8: every `InMemoryCommandBus.execute` call appends the dispatched value
to the execution history before any configured behavior runs, so after any
command sequence (including calls configured to reject) the total execution
count is the number of calls, the per-type count is the number of calls with
that constructor name, and `getLastExecutedCommandOfType` returns the most
recently dispatched command of that type. -/
theorem C8_execution_history_accounting (h : Heap) (s : InMemoryCommandBus)
    (c : JsValue) (cmds : List JsValue) :
    ((InMemoryCommandBus.execute h s c).2).executedCommands =
      s.executedCommands ++ [c] ∧
    (InMemoryCommandBus.runAll h InMemoryCommandBus.new cmds).executedCommands =
      cmds ∧
    InMemoryCommandBus.getExecutionCount h
      (InMemoryCommandBus.runAll h InMemoryCommandBus.new cmds) none =
      cmds.length ∧
    (∀ n : String,
      InMemoryCommandBus.getExecutionCount h
        (InMemoryCommandBus.runAll h InMemoryCommandBus.new cmds) (some n) =
        (cmds.filter (fun c2 => ctorNameOf h c2 == n)).length) ∧
    (∀ n : String,
      InMemoryCommandBus.getLastExecutedCommandOfType h
        (InMemoryCommandBus.runAll h InMemoryCommandBus.new cmds) n =
        (cmds.filter (fun c2 => ctorNameOf h c2 == n)).getLast?) := by
  have hrun : (InMemoryCommandBus.runAll h InMemoryCommandBus.new cmds).executedCommands = cmds := by
    rw [InMemoryCommandBus.runAll_executed]
    rfl
  refine ⟨InMemoryCommandBus.execute_records h s c, hrun, ?_, ?_, ?_⟩
  · simp [InMemoryCommandBus.getExecutionCount, hrun]
  · intro n; simp [InMemoryCommandBus.getExecutionCount, hrun]
  · intro n
    simp only [InMemoryCommandBus.getLastExecutedCommandOfType, hrun]
    exact reverse_find?_eq_filter_getLast? _ cmds

/-- Witness for C8: the concrete Bar, Foo, Bar scenario of the specification
(three dispatches, the second of type Foo); counts are 3 and 1, and the last
Bar is the third command. -/
theorem C8_witness :
    (InMemoryCommandBus.runAll [] InMemoryCommandBus.new
      [.obj "Bar" false [("i", .num 1)], .obj "Foo" false [],
       .obj "Bar" false [("i", .num 3)]]).executedCommands =
      [.obj "Bar" false [("i", .num 1)], .obj "Foo" false [],
       .obj "Bar" false [("i", .num 3)]] ∧
    InMemoryCommandBus.getExecutionCount []
      (InMemoryCommandBus.runAll [] InMemoryCommandBus.new
        [.obj "Bar" false [("i", .num 1)], .obj "Foo" false [],
         .obj "Bar" false [("i", .num 3)]]) none = 3 ∧
    InMemoryCommandBus.getExecutionCount []
      (InMemoryCommandBus.runAll [] InMemoryCommandBus.new
        [.obj "Bar" false [("i", .num 1)], .obj "Foo" false [],
         .obj "Bar" false [("i", .num 3)]]) (some "Foo") = 1 ∧
    InMemoryCommandBus.getLastExecutedCommandOfType []
      (InMemoryCommandBus.runAll [] InMemoryCommandBus.new
        [.obj "Bar" false [("i", .num 1)], .obj "Foo" false [],
         .obj "Bar" false [("i", .num 3)]]) "Bar" =
      some (.obj "Bar" false [("i", .num 3)]) := by
  have hmain := C8_execution_history_accounting [] InMemoryCommandBus.new
    (.obj "Foo" false [])
    [.obj "Bar" false [("i", .num 1)], .obj "Foo" false [],
     .obj "Bar" false [("i", .num 3)]]
  refine ⟨hmain.2.1, hmain.2.2.1, ?_, ?_⟩
  · rw [hmain.2.2.2.1 "Foo"]; rfl
  · rw [hmain.2.2.2.2 "Bar"]; rfl

/-- C9: one-off queued results are consumed from the front of the queue,
exactly once each, in first-in-first-out order; while the queue is non-empty
the head takes priority over any per-type handler and the default result; a
queued rejection makes the awaited call reject; afterwards calls fall back to
the handler or default. -/
theorem C9_result_queue_fifo (h : Heap) (s : InMemoryCommandBus) (c : JsValue)
    (r : Except JsValue JsValue) (rest : List (Except JsValue JsValue))
    (hq : s.resultQueue = r :: rest)
    (s0 : InMemoryCommandBus) (hq0 : s0.resultQueue = [])
    (v e c1 c2 c3 : JsValue) :
    InMemoryCommandBus.execute h s c =
      (r, { s with executedCommands := s.executedCommands ++ [c],
                   resultQueue := rest }) ∧
    (∀ e2, r = .error e2 → (InMemoryCommandBus.execute h s c).1 = .error e2) ∧
    ((InMemoryCommandBus.execute h
        ((s0.mockResolvedValueOnce v).mockRejectedValue e) c1).1 = .ok v ∧
     (InMemoryCommandBus.execute h
        (InMemoryCommandBus.execute h
          ((s0.mockResolvedValueOnce v).mockRejectedValue e) c1).2 c2).1 =
       .error e ∧
     (InMemoryCommandBus.execute h
        (InMemoryCommandBus.execute h
          (InMemoryCommandBus.execute h
            ((s0.mockResolvedValueOnce v).mockRejectedValue e) c1).2 c2).2
        c3).1 =
       (match s0.mockHandlers.lookup (ctorNameOf h c3) with
        | some f => f c3
        | none => .ok s0.defaultResult)) := by
  have hhead : InMemoryCommandBus.execute h s c =
      (r, { s with executedCommands := s.executedCommands ++ [c],
                   resultQueue := rest }) := by
    simp [InMemoryCommandBus.execute, hq]
  refine ⟨hhead, ?_, ?_⟩
  · intro e2 he2; rw [hhead, he2]
  · have h1 : InMemoryCommandBus.execute h
        ((s0.mockResolvedValueOnce v).mockRejectedValue e) c1 =
        (.ok v, { s0 with
          executedCommands := s0.executedCommands ++ [c1],
          resultQueue := [.error e] }) := by
      simp [InMemoryCommandBus.execute, InMemoryCommandBus.mockResolvedValueOnce,
        InMemoryCommandBus.mockRejectedValue, hq0]
    have h2 : InMemoryCommandBus.execute h
        ({ s0 with executedCommands := s0.executedCommands ++ [c1],
                   resultQueue := [.error e] } : InMemoryCommandBus) c2 =
        (.error e, { s0 with
          executedCommands := (s0.executedCommands ++ [c1]) ++ [c2],
          resultQueue := [] }) := by
      simp [InMemoryCommandBus.execute]
    refine ⟨by rw [h1], by rw [h1, h2], ?_⟩
    rw [h1, h2]
    cases hh : s0.mockHandlers.lookup (ctorNameOf h c3) <;>
      simp [InMemoryCommandBus.execute, hh]

/-- Witness for C9: queue a resolution then a rejection on a fresh bus with a
default result; the three following calls yield the queued value, the queued
rejection, and the default, in that order. -/
theorem C9_witness :
    ((((InMemoryCommandBus.new.mockReturnValue (.str "fallback")
        ).mockResolvedValueOnce (.str "once")).mockRejectedValue (.str "bad")
      ).resultQueue = Except.ok (.str "once") :: [Except.error (.str "bad")]) ∧
    (InMemoryCommandBus.execute []
      (((InMemoryCommandBus.new.mockReturnValue (.str "fallback")
        ).mockResolvedValueOnce (.str "once")).mockRejectedValue (.str "bad"))
      samplePropslessCommand).1 = .ok (.str "once") ∧
    (InMemoryCommandBus.execute []
      (InMemoryCommandBus.execute []
        (((InMemoryCommandBus.new.mockReturnValue (.str "fallback")
          ).mockResolvedValueOnce (.str "once")).mockRejectedValue (.str "bad"))
        samplePropslessCommand).2 samplePropslessCommand).1 =
      .error (.str "bad") ∧
    (InMemoryCommandBus.execute []
      (InMemoryCommandBus.execute []
        (InMemoryCommandBus.execute []
          (((InMemoryCommandBus.new.mockReturnValue (.str "fallback")
            ).mockResolvedValueOnce (.str "once")).mockRejectedValue (.str "bad"))
          samplePropslessCommand).2 samplePropslessCommand).2
      samplePropslessCommand).1 = .ok (.str "fallback") := by
  have hmain := C9_result_queue_fifo []
    ((((InMemoryCommandBus.new.mockReturnValue (.str "fallback")
      ).mockResolvedValueOnce (.str "once")).mockRejectedValue (.str "bad")))
    samplePropslessCommand
    (.ok (.str "once")) [.error (.str "bad")] rfl
    (InMemoryCommandBus.new.mockReturnValue (.str "fallback")) rfl
    (.str "once") (.str "bad")
    samplePropslessCommand samplePropslessCommand samplePropslessCommand
  refine ⟨rfl, hmain.2.2.1, hmain.2.2.2.1, ?_⟩
  rw [hmain.2.2.2.2]; rfl

/-! ## Association-list lemmas for object field lookup -/

/-- Lookup across a concatenation takes the first list first. -/
theorem lookup_append_or {β : Type} (l1 l2 : List (String × β)) (k : String) :
    (l1 ++ l2).lookup k = (l1.lookup k).or (l2.lookup k) := by
  induction l1 with
  | nil => simp [Option.or]
  | cons hd tl ih =>
    obtain ⟨k1, v1⟩ := hd
    rw [List.cons_append, List.lookup_cons, List.lookup_cons]
    cases k == k1 <;> simp [ih, Option.or]

/-- Lookup through a key-preserving value override. -/
theorem lookup_map_override {β : Type} (a b : List (String × β)) (k : String) :
    (a.map (fun p => (p.1, (b.lookup p.1).getD p.2))).lookup k =
      (a.lookup k).map (fun v => (b.lookup k).getD v) := by
  induction a with
  | nil => rfl
  | cons hd tl ih =>
    obtain ⟨k1, v1⟩ := hd
    rw [List.map_cons, List.lookup_cons, List.lookup_cons]
    cases hk : k == k1 with
    | true =>
      have : k = k1 := eq_of_beq hk
      subst this
      simp
    | false => simpa using ih

/-- Filtering is invisible to lookup at a key whose entries all pass. -/
theorem lookup_filter_keepAll {β : Type} (pred : String × β → Bool)
    (b : List (String × β)) (k : String) (hp : ∀ v, pred (k, v) = true) :
    (b.filter pred).lookup k = b.lookup k := by
  induction b with
  | nil => rfl
  | cons hd tl ih =>
    obtain ⟨k1, v1⟩ := hd
    rw [List.filter_cons]
    cases hk : k == k1 with
    | true =>
      have hke : k = k1 := eq_of_beq hk
      subst hke
      have hkept : pred (k, v1) = true := hp v1
      simp [hkept, List.lookup_cons]
    | false =>
      cases hpred : pred (k1, v1) <;> simp [List.lookup_cons, hk, ih]

/-- The first entry found at a key survives a filter that keeps it. -/
theorem lookup_filter_of_lookup {β : Type} (pred : String × β → Bool)
    (l : List (String × β)) (k : String) (v : β)
    (hv : l.lookup k = some v) (hp : pred (k, v) = true) :
    (l.filter pred).lookup k = some v := by
  induction l with
  | nil => simp at hv
  | cons hd tl ih =>
    obtain ⟨k1, v1⟩ := hd
    rw [List.filter_cons]
    rw [List.lookup_cons] at hv
    cases hk : k == k1 with
    | true =>
      have hke : k = k1 := eq_of_beq hk
      rw [hk] at hv
      simp only at hv
      cases hv
      subst hke
      simp [hp, List.lookup_cons]
    | false =>
      rw [hk] at hv
      simp only at hv
      cases hpred : pred (k1, v1) <;> simp [List.lookup_cons, hk, ih hv]

/-- Spreading resolves key collisions in favor of the second operand and keeps
everything else from the first. -/
theorem lookup_spreadMerge (a b : List (String × JsValue)) (k : String) :
    (spreadMerge a b).lookup k = (b.lookup k).or (a.lookup k) := by
  unfold spreadMerge
  rw [lookup_append_or, lookup_map_override]
  cases ha : a.lookup k with
  | some v => cases hb : b.lookup k <;> simp [Option.or]
  | none =>
    rw [lookup_filter_keepAll _ _ _ (fun v => by simp [ha])]
    cases hb : b.lookup k <;> simp [Option.or]

/-- Spreading an empty object is the identity. -/
theorem spreadMerge_nil (a : List (String × JsValue)) : spreadMerge a [] = a := by
  unfold spreadMerge
  simp

/-! ## Production-shape payload lemmas -/

/-- In production mode, at any non-error level, the payload builds into the
stripped literal `{timestamp, level, message, ...extraParams, ...metadata}`
whenever the message coercion succeeds. -/
theorem buildLogPayload_production_nonerror (env : LoggerEnv) (l : BaseLogger)
    (hl : l.isLocal = false) (level : String) (hlv : (level == "error") = false)
    (message mv optionalParams : JsValue)
    (hc : coerceMessage env.heap message = .ok mv) :
    BaseLogger.buildLogPayload env l level message optionalParams =
      .ok ((spreadMerge (spreadMerge
        [("timestamp", .str env.now),
         ("level", .str (getCloudWatchLevel level)),
         ("message", mv)] l.extraParams)
        (spreadFields env.heap (normalizeOptionalParams optionalParams))).filter
          (fun p => !isNullish p.2)) := by
  unfold BaseLogger.buildLogPayload localRequestCleanup errorStackBlock
  simp [hl, hlv, hc]

/-- `BaseLogger.log` in production mode: exactly one `info`-level emission
carrying the stripped production payload. -/
theorem log_production (env : LoggerEnv) (l : BaseLogger)
    (hl : l.isLocal = false) (hpass : l.shouldLog env.cfg = true)
    (message mv optionalParams : JsValue)
    (hc : coerceMessage env.heap message = .ok mv) :
    BaseLogger.log env l message optionalParams =
      .ok [⟨"info", (spreadMerge (spreadMerge
        [("timestamp", .str env.now),
         ("level", .str "INFO"),
         ("message", mv)] l.extraParams)
        (spreadFields env.heap (normalizeOptionalParams optionalParams))).filter
          (fun p => !isNullish p.2)⟩] := by
  unfold BaseLogger.log
  rw [hpass]
  rw [buildLogPayload_production_nonerror env l hl "log" rfl message mv
    optionalParams hc]
  rfl

/-- The error-stack block never throws on an object metadata (the `in`
operator succeeds there). -/
theorem errorStackBlock_obj_ok (env : LoggerEnv) (level : String) (cn : String)
    (ie : Bool) (fs payloadIn : List (String × JsValue)) :
    ∃ q, errorStackBlock env level (.obj cn ie fs) payloadIn = .ok q := by
  unfold errorStackBlock
  split
  · simp only [jsIn, derefObj]
    split <;> exact ⟨_, rfl⟩
  · exact ⟨_, rfl⟩

/-- In production mode, at error level with an object metadata (the only way
the public `error` method reaches `buildLogPayload`), the payload always
builds. -/
theorem buildLogPayload_production_error_ok (env : LoggerEnv) (l : BaseLogger)
    (hl : l.isLocal = false) (message mv : JsValue)
    (cn : String) (ie : Bool) (fs : List (String × JsValue))
    (hc : coerceMessage env.heap message = .ok mv) :
    ∃ p, BaseLogger.buildLogPayload env l "error" message (.obj cn ie fs) = .ok p := by
  obtain ⟨q, hq⟩ := errorStackBlock_obj_ok env "error" cn ie fs
    (spreadMerge (spreadMerge
      [("timestamp", .str env.now),
       ("level", .str (getCloudWatchLevel "error")),
       ("message", mv)] l.extraParams)
      (spreadFields env.heap (.obj cn ie fs)))
  refine ⟨q.filter (fun p => !isNullish p.2), ?_⟩
  unfold BaseLogger.buildLogPayload localRequestCleanup
  simp only [normalizeOptionalParams, hl, Bool.false_eq_true, if_false, hc]
  rw [hq]

/-- C10: in the production-shaped payload, call-specific metadata is spread
into the record after the built-in fields, so metadata entries named
`message`, `level` or `timestamp` replace the record's own coerced message,
severity label and ISO timestamp in the emitted payload. -/
theorem C10_metadata_overrides_builtins (env : LoggerEnv) (l : BaseLogger)
    (hl : l.isLocal = false) (hpass : l.shouldLog env.cfg = true)
    (message mv : JsValue) (hc : coerceMessage env.heap message = .ok mv)
    (cn : String) (ie : Bool) (md : List (String × JsValue))
    (m lv t : JsValue)
    (hmm : md.lookup "message" = some m) (hnm : isNullish m = false)
    (hml : md.lookup "level" = some lv) (hnl : isNullish lv = false)
    (hmt : md.lookup "timestamp" = some t) (hnt : isNullish t = false) :
    BaseLogger.log env l message (.obj cn ie md) =
      .ok [⟨"info", (spreadMerge (spreadMerge
        [("timestamp", .str env.now), ("level", .str "INFO"), ("message", mv)]
        l.extraParams) md).filter (fun p => !isNullish p.2)⟩] ∧
    ((spreadMerge (spreadMerge
        [("timestamp", .str env.now), ("level", .str "INFO"), ("message", mv)]
        l.extraParams) md).filter (fun p => !isNullish p.2)).lookup "message" =
      some m ∧
    ((spreadMerge (spreadMerge
        [("timestamp", .str env.now), ("level", .str "INFO"), ("message", mv)]
        l.extraParams) md).filter (fun p => !isNullish p.2)).lookup "level" =
      some lv ∧
    ((spreadMerge (spreadMerge
        [("timestamp", .str env.now), ("level", .str "INFO"), ("message", mv)]
        l.extraParams) md).filter (fun p => !isNullish p.2)).lookup "timestamp" =
      some t := by
  refine ⟨?_, ?_, ?_, ?_⟩
  · rw [log_production env l hl hpass message mv (.obj cn ie md) hc]
    rfl
  · refine lookup_filter_of_lookup _ _ _ m ?_ (by simp [hnm])
    rw [lookup_spreadMerge, hmm]
    rfl
  · refine lookup_filter_of_lookup _ _ _ lv ?_ (by simp [hnl])
    rw [lookup_spreadMerge, hml]
    rfl
  · refine lookup_filter_of_lookup _ _ _ t ?_ (by simp [hnt])
    rw [lookup_spreadMerge, hmt]
    rfl

/-- Witness for C10 at concrete inputs: metadata entries `message`, `level`
and `timestamp` end up verbatim in the emitted production payload, displacing
the coerced message, the `INFO` label and the clock value. -/
theorem C10_witness :
    BaseLogger.log
      { cfg := LocalLoggerConfig.shipped, heap := [],
        now := "2026-02-03T04:05:06.000Z", chalkNames := [],
        chalk := fun _ t2 => t2 }
      { extraParams := [("appName", .str "api")], isLocal := false }
      (.str "orig")
      (.obj "Object" false
        [("message", .str "overridden"), ("level", .str "CUSTOM"),
         ("timestamp", .str "1999-12-31T23:59:59.000Z")]) =
      .ok [⟨"info", (spreadMerge (spreadMerge
        [("timestamp", .str "2026-02-03T04:05:06.000Z"),
         ("level", .str "INFO"), ("message", .str "orig")]
        [("appName", .str "api")])
        [("message", .str "overridden"), ("level", .str "CUSTOM"),
         ("timestamp", .str "1999-12-31T23:59:59.000Z")]).filter
          (fun p => !isNullish p.2)⟩] ∧
    ((spreadMerge (spreadMerge
        [("timestamp", .str "2026-02-03T04:05:06.000Z"),
         ("level", .str "INFO"), ("message", .str "orig")]
        [("appName", .str "api")])
        [("message", .str "overridden"), ("level", .str "CUSTOM"),
         ("timestamp", .str "1999-12-31T23:59:59.000Z")]).filter
          (fun p => !isNullish p.2)).lookup "message" =
      some (.str "overridden") :=
  have hmain := C10_metadata_overrides_builtins
    { cfg := LocalLoggerConfig.shipped, heap := [],
      now := "2026-02-03T04:05:06.000Z", chalkNames := [],
      chalk := fun _ t2 => t2 }
    { extraParams := [("appName", .str "api")], isLocal := false }
    rfl rfl (.str "orig") (.str "orig") rfl "Object" false
    [("message", .str "overridden"), ("level", .str "CUSTOM"),
     ("timestamp", .str "1999-12-31T23:59:59.000Z")]
    (.str "overridden") (.str "CUSTOM") (.str "1999-12-31T23:59:59.000Z")
    rfl rfl rfl rfl rfl rfl
  ⟨hmain.1, hmain.2.1⟩

/-- Lookup skips a cons cell with a different key. -/
theorem lookup_cons_ne {β : Type} (k k1 : String) (v1 : β)
    (tl : List (String × β)) (hne : k ≠ k1) :
    ((k1, v1) :: tl).lookup k = tl.lookup k := by
  rw [List.lookup_cons]
  have hb : (k == k1) = false := beq_eq_false_iff_ne.mpr hne
  rw [hb]

/-- C7: `createChild(context)` yields a logger whose contextual fields are
the parent fields merged with `context`, the context winning on key
collision; the parent is untouched (the source only spreads into a fresh
object, which the functional model captures) and `isLocal` is inherited.
Nesting composes: `parent.createChild({a:1}).createChild({a:2,b:3})` carries
`a:2` and `b:3` plus every other parent field, and a subsequent production
log call emits a payload containing `a:2`, `b:3` and the parent's other
non-nullish fields. -/
theorem C7_createChild_merge_nesting (st : BaseLogger)
    (ctx : List (String × JsValue)) (env : LoggerEnv) (s : String)
    (hl : st.isLocal = false) :
    (∀ k, ((st.createChild ctx).extraParams).lookup k =
      (ctx.lookup k).or (st.extraParams.lookup k)) ∧
    (st.createChild ctx).isLocal = st.isLocal ∧
    (((st.createChild [("a", .num 1)]).createChild
        [("a", .num 2), ("b", .num 3)]).extraParams).lookup "a" =
      some (.num 2) ∧
    (((st.createChild [("a", .num 1)]).createChild
        [("a", .num 2), ("b", .num 3)]).extraParams).lookup "b" =
      some (.num 3) ∧
    (∀ k, k ≠ "a" → k ≠ "b" →
      (((st.createChild [("a", .num 1)]).createChild
          [("a", .num 2), ("b", .num 3)]).extraParams).lookup k =
        st.extraParams.lookup k) ∧
    BaseLogger.log env
      ((st.createChild [("a", .num 1)]).createChild
        [("a", .num 2), ("b", .num 3)])
      (.str s) .undefined =
      .ok [⟨"info", (spreadMerge
        [("timestamp", .str env.now), ("level", .str "INFO"),
         ("message", .str s)]
        (((st.createChild [("a", .num 1)]).createChild
          [("a", .num 2), ("b", .num 3)]).extraParams)).filter
          (fun p => !isNullish p.2)⟩] ∧
    ((spreadMerge
        [("timestamp", .str env.now), ("level", .str "INFO"),
         ("message", .str s)]
        (((st.createChild [("a", .num 1)]).createChild
          [("a", .num 2), ("b", .num 3)]).extraParams)).filter
          (fun p => !isNullish p.2)).lookup "a" = some (.num 2) ∧
    ((spreadMerge
        [("timestamp", .str env.now), ("level", .str "INFO"),
         ("message", .str s)]
        (((st.createChild [("a", .num 1)]).createChild
          [("a", .num 2), ("b", .num 3)]).extraParams)).filter
          (fun p => !isNullish p.2)).lookup "b" = some (.num 3) ∧
    (∀ k v, k ≠ "a" → k ≠ "b" → k ≠ "timestamp" → k ≠ "level" → k ≠ "message" →
      st.extraParams.lookup k = some v → isNullish v = false →
      ((spreadMerge
          [("timestamp", .str env.now), ("level", .str "INFO"),
           ("message", .str s)]
          (((st.createChild [("a", .num 1)]).createChild
            [("a", .num 2), ("b", .num 3)]).extraParams)).filter
            (fun p => !isNullish p.2)).lookup k = some v) := by
  have hchild : ∀ (l2 : BaseLogger) (c2 : List (String × JsValue)) (k : String),
      ((l2.createChild c2).extraParams).lookup k =
        (c2.lookup k).or (l2.extraParams.lookup k) := by
    intro l2 c2 k
    unfold BaseLogger.createChild
    exact lookup_spreadMerge _ _ k
  have hga : (((st.createChild [("a", .num 1)]).createChild
      [("a", .num 2), ("b", .num 3)]).extraParams).lookup "a" = some (.num 2) := by
    rw [hchild]; rfl
  have hgb : (((st.createChild [("a", .num 1)]).createChild
      [("a", .num 2), ("b", .num 3)]).extraParams).lookup "b" = some (.num 3) := by
    rw [hchild]; rfl
  have hgk : ∀ k, k ≠ "a" → k ≠ "b" →
      (((st.createChild [("a", .num 1)]).createChild
        [("a", .num 2), ("b", .num 3)]).extraParams).lookup k =
      st.extraParams.lookup k := by
    intro k hka hkb
    rw [hchild, hchild]
    rw [lookup_cons_ne k "a" (JsValue.num 2) _ hka, lookup_cons_ne k "b" (JsValue.num 3) _ hkb,
      List.lookup_nil, lookup_cons_ne k "a" (JsValue.num 1) _ hka, List.lookup_nil]
    rfl
  have hloc : ((st.createChild [("a", .num 1)]).createChild
      [("a", .num 2), ("b", .num 3)]).isLocal = false := hl
  have hpass : ((st.createChild [("a", .num 1)]).createChild
      [("a", .num 2), ("b", .num 3)]).shouldLog env.cfg = true := by
    unfold BaseLogger.shouldLog
    rw [hloc]
    rfl
  have hlog := log_production env
    ((st.createChild [("a", .num 1)]).createChild [("a", .num 2), ("b", .num 3)])
    hloc hpass (.str s) (.str s) .undefined rfl
  have hmeta : spreadFields env.heap (normalizeOptionalParams .undefined) =
      ([] : List (String × JsValue)) := rfl
  rw [hmeta, spreadMerge_nil] at hlog
  refine ⟨hchild st ctx, rfl, hga, hgb, hgk, hlog, ?_, ?_, ?_⟩
  · refine lookup_filter_of_lookup _ _ _ (JsValue.num 2) ?_ rfl
    rw [lookup_spreadMerge, hga]
    rfl
  · refine lookup_filter_of_lookup _ _ _ (JsValue.num 3) ?_ rfl
    rw [lookup_spreadMerge, hgb]
    rfl
  · intro k v hka hkb hkt hklv hkm hst hnn
    refine lookup_filter_of_lookup _ _ _ v ?_ (by simp [hnn])
    rw [lookup_spreadMerge, hgk k hka hkb, hst]
    rw [lookup_cons_ne k "timestamp" _ _ hkt, lookup_cons_ne k "level" _ _ hklv,
      lookup_cons_ne k "message" _ _ hkm, List.lookup_nil]
    rfl

/-- Witness for C7 at a concrete parent: the doubly nested child carries
`a:2`, `b:3` and the parent's `appName`, and the emitted production payload
contains all three. -/
theorem C7_witness :
    (((sampleParentLogger.createChild [("a", .num 1)]).createChild
        [("a", .num 2), ("b", .num 3)]).extraParams).lookup "a" =
      some (.num 2) ∧
    (((sampleParentLogger.createChild [("a", .num 1)]).createChild
        [("a", .num 2), ("b", .num 3)]).extraParams).lookup "b" =
      some (.num 3) ∧
    (((sampleParentLogger.createChild [("a", .num 1)]).createChild
        [("a", .num 2), ("b", .num 3)]).extraParams).lookup "appName" =
      some (.str "api") ∧
    ((spreadMerge
        [("timestamp", .str sampleEnv.now), ("level", .str "INFO"),
         ("message", .str "hello")]
        (((sampleParentLogger.createChild [("a", .num 1)]).createChild
          [("a", .num 2), ("b", .num 3)]).extraParams)).filter
          (fun p => !isNullish p.2)).lookup "a" = some (.num 2) ∧
    ((spreadMerge
        [("timestamp", .str sampleEnv.now), ("level", .str "INFO"),
         ("message", .str "hello")]
        (((sampleParentLogger.createChild [("a", .num 1)]).createChild
          [("a", .num 2), ("b", .num 3)]).extraParams)).filter
          (fun p => !isNullish p.2)).lookup "appName" = some (.str "api") := by
  have hmain := C7_createChild_merge_nesting sampleParentLogger []
    sampleEnv "hello" rfl
  refine ⟨hmain.2.2.1, hmain.2.2.2.1, ?_, hmain.2.2.2.2.2.2.1, ?_⟩
  · rw [hmain.2.2.2.2.1 "appName" (by decide) (by decide)]
    rfl
  · exact hmain.2.2.2.2.2.2.2.2 "appName" (.str "api") (by decide) (by decide)
      (by decide) (by decide) (by decide) rfl rfl

/-- In local mode, with a non-empty string moduleName, `shouldLog` reduces to
the allow-list / deny-list decision. -/
theorem shouldLog_local_str (cfg : LocalLoggerConfig) (l : BaseLogger)
    (m : String) (hloc : l.isLocal = true)
    (hlook : l.extraParams.lookup "moduleName" = some (.str m))
    (hbeq : (m == "") = false) :
    l.shouldLog cfg =
      (if cfg.enabledModules.length > 0 then cfg.enabledModules.contains m
       else if cfg.disabledModules.length > 0 then !cfg.disabledModules.contains m
       else true) := by
  unfold BaseLogger.shouldLog
  rw [hloc]
  simp only [lookupField, hlook, Option.getD_some, isFalsy, stringIncludes, hbeq,
    Bool.not_true, Bool.false_eq_true, if_false]

/-- C6: when not in local mode every record passes the filter; in local mode
a record whose logger has no contextual `moduleName` passes; otherwise a
non-empty allow-list decides by membership (the deny-list is ignored), else a
non-empty deny-list excludes its members, else the record passes.  A record
that does not pass produces no emission from any of the four methods, and a
passing record produces exactly one emission from `log`. -/
theorem C6_local_module_filter (env : LoggerEnv) (l : BaseLogger)
    (msg params errorArg : JsValue) :
    (l.isLocal = false → l.shouldLog env.cfg = true) ∧
    (l.extraParams.lookup "moduleName" = none → l.shouldLog env.cfg = true) ∧
    (∀ m : String, m ≠ "" →
      l.extraParams.lookup "moduleName" = some (.str m) → l.isLocal = true →
      (env.cfg.enabledModules ≠ [] →
        l.shouldLog env.cfg = env.cfg.enabledModules.contains m) ∧
      (env.cfg.enabledModules = [] → env.cfg.disabledModules ≠ [] →
        l.shouldLog env.cfg = !env.cfg.disabledModules.contains m) ∧
      (env.cfg.enabledModules = [] → env.cfg.disabledModules = [] →
        l.shouldLog env.cfg = true)) ∧
    (l.shouldLog env.cfg = false →
      BaseLogger.log env l msg params = .ok [] ∧
      BaseLogger.debug env l msg params = .ok [] ∧
      BaseLogger.warn env l msg params = .ok [] ∧
      BaseLogger.error env l msg errorArg params = .ok []) ∧
    (∀ p, l.shouldLog env.cfg = true →
      BaseLogger.buildLogPayload env l "log" msg params = .ok p →
      BaseLogger.log env l msg params = .ok [⟨"info", p⟩]) := by
  refine ⟨?_, ?_, ?_, ?_, ?_⟩
  · intro h
    simp [BaseLogger.shouldLog, h]
  · intro hm
    by_cases hloc : l.isLocal <;>
      simp [BaseLogger.shouldLog, hloc, lookupField, hm, isFalsy]
  · intro m hm hlook hloc
    have hbeq : (m == "") = false := beq_eq_false_iff_ne.mpr hm
    refine ⟨?_, ?_, ?_⟩
    · intro hne
      rw [shouldLog_local_str env.cfg l m hloc hlook hbeq]
      have hp : 0 < env.cfg.enabledModules.length := List.length_pos.mpr hne
      simp [hp]
    · intro he hdne
      rw [shouldLog_local_str env.cfg l m hloc hlook hbeq]
      have hp : 0 < env.cfg.disabledModules.length := List.length_pos.mpr hdne
      simp [he, hp]
    · intro he hd
      rw [shouldLog_local_str env.cfg l m hloc hlook hbeq]
      simp [he, hd]
  · intro hfail
    refine ⟨?_, ?_, ?_, ?_⟩ <;>
      simp [BaseLogger.log, BaseLogger.debug, BaseLogger.warn, BaseLogger.error,
        hfail]
  · intro p hpass hbuild
    simp [BaseLogger.log, hpass, hbuild]

/-- Witness for C6: with allow-list `["moduleA"]`, a child scoped to
`moduleB` is filtered out (no emission), while a child scoped to `moduleA`
passes and produces exactly one emission. -/
theorem C6_witness :
    (sampleLocalParent.createChild
      [("moduleName", .str "moduleB")]).shouldLog sampleAllowListEnv.cfg =
      false ∧
    BaseLogger.log sampleAllowListEnv
      (sampleLocalParent.createChild [("moduleName", .str "moduleB")])
      (.str "hello") .undefined = .ok [] ∧
    (sampleLocalParent.createChild
      [("moduleName", .str "moduleA")]).shouldLog sampleAllowListEnv.cfg =
      true ∧
    BaseLogger.log sampleAllowListEnv
      (sampleLocalParent.createChild [("moduleName", .str "moduleA")])
      (.str "hello") .undefined =
      .ok [⟨"info", [("msg", .str "[moduleA] | hello")]⟩] := by
  have hB := C6_local_module_filter sampleAllowListEnv
    (sampleLocalParent.createChild [("moduleName", .str "moduleB")])
    (.str "hello") .undefined .undefined
  have hA := C6_local_module_filter sampleAllowListEnv
    (sampleLocalParent.createChild [("moduleName", .str "moduleA")])
    (.str "hello") .undefined .undefined
  have hBfail : (sampleLocalParent.createChild
      [("moduleName", .str "moduleB")]).shouldLog sampleAllowListEnv.cfg =
      false := by
    rw [(hB.2.2.1 "moduleB" (by decide) rfl rfl).1 (by decide)]
    rfl
  have hApass : (sampleLocalParent.createChild
      [("moduleName", .str "moduleA")]).shouldLog sampleAllowListEnv.cfg =
      true := by
    rw [(hA.2.2.1 "moduleA" (by decide) rfl rfl).1 (by decide)]
    rfl
  refine ⟨hBfail, (hB.2.2.2.1 hBfail).1, hApass, ?_⟩
  exact hA.2.2.2.2 [("msg", .str "[moduleA] | hello")] hApass rfl

/-- Counterexample to C5: a production-mode `log` call whose message is a
circular object (`x.self === x`).  The message coercion runs
`JSON.stringify(message)`, which throws `TypeError: Converting circular
structure to JSON`, so the method throws instead of emitting. -/
theorem C5_counterexample_circular_message_throws :
    BaseLogger.log
      { cfg := LocalLoggerConfig.shipped, heap := circularHeap,
        now := "2026-02-03T04:05:06.000Z", chalkNames := [],
        chalk := fun _ t => t }
      { extraParams := [("appName", .str "api")], isLocal := false }
      (.ref 0) .undefined =
      .error (.typeError "Converting circular structure to JSON") := rfl

/-- C5 amended: the claim fails for non-serialisable messages (see the
circular counterexample), but holds for every message whose JSON coercion
succeeds: in production mode `log`/`debug`/`warn`/`error` never throw for any
such message and any `optionalParams`, a string message is embedded as-is, a
non-string message is coerced via `JSON.stringify` and, when no contextual or
call-specific field named `message` overrides it, the coerced text is exactly
the payload message field. -/
theorem C5_amended_serializable_no_throw (env : LoggerEnv) (l : BaseLogger)
    (hl : l.isLocal = false) (message optionalParams errorArg mv : JsValue)
    (hc : coerceMessage env.heap message = .ok mv) :
    (∃ es, BaseLogger.log env l message optionalParams = .ok es) ∧
    (∃ es, BaseLogger.debug env l message optionalParams = .ok es) ∧
    (∃ es, BaseLogger.warn env l message optionalParams = .ok es) ∧
    (∃ es, BaseLogger.error env l message errorArg optionalParams = .ok es) ∧
    (∀ s2, message = .str s2 → mv = .str s2) ∧
    (∀ s2, (∀ s3, message ≠ .str s3) →
      jsonStringify env.heap message = .ok (some s2) → mv = .str s2) ∧
    (∀ p, l.extraParams.lookup "message" = none →
      (spreadFields env.heap (normalizeOptionalParams optionalParams)).lookup
        "message" = none →
      isNullish mv = false →
      BaseLogger.buildLogPayload env l "log" message optionalParams = .ok p →
      p.lookup "message" = some mv) := by
  have hpass : l.shouldLog env.cfg = true := by
    simp [BaseLogger.shouldLog, hl]
  refine ⟨⟨_, log_production env l hl hpass message mv optionalParams hc⟩,
    ?_, ?_, ?_, ?_, ?_, ?_⟩
  · have h2 : BaseLogger.debug env l message optionalParams =
        .ok [⟨"debug", (spreadMerge (spreadMerge
          [("timestamp", .str env.now),
           ("level", .str (getCloudWatchLevel "debug")), ("message", mv)]
          l.extraParams)
          (spreadFields env.heap (normalizeOptionalParams optionalParams))).filter
            (fun p => !isNullish p.2)⟩] := by
      unfold BaseLogger.debug
      rw [hpass, buildLogPayload_production_nonerror env l hl "debug" rfl
        message mv optionalParams hc]
      rfl
    exact ⟨_, h2⟩
  · have h2 : BaseLogger.warn env l message optionalParams =
        .ok [⟨"warn", (spreadMerge (spreadMerge
          [("timestamp", .str env.now),
           ("level", .str (getCloudWatchLevel "warn")), ("message", mv)]
          l.extraParams)
          (spreadFields env.heap (normalizeOptionalParams optionalParams))).filter
            (fun p => !isNullish p.2)⟩] := by
      unfold BaseLogger.warn
      rw [hpass, buildLogPayload_production_nonerror env l hl "warn" rfl
        message mv optionalParams hc]
      rfl
    exact ⟨_, h2⟩
  · obtain ⟨p, hp⟩ := buildLogPayload_production_error_ok env l hl message mv
      "Object" false
      (spreadMerge (spreadFields env.heap optionalParams) [("error", errorArg)])
      hc
    have h2 : BaseLogger.error env l message errorArg optionalParams =
        .ok [⟨"error", p⟩] := by
      simp only [BaseLogger.error, hpass, Bool.not_true, Bool.false_eq_true,
        if_false, hp]
    exact ⟨_, h2⟩
  · intro s2 hm
    subst hm
    simp only [coerceMessage] at hc
    injection hc with h2
    exact h2.symm
  · intro s2 hns hjs
    cases message with
    | str s3 => exact (hns s3 rfl).elim
    | undefined =>
      simp only [coerceMessage, hjs] at hc
      injection hc with h2
      exact h2.symm
    | nul =>
      simp only [coerceMessage, hjs] at hc
      injection hc with h2
      exact h2.symm
    | bool b =>
      simp only [coerceMessage, hjs] at hc
      injection hc with h2
      exact h2.symm
    | num n =>
      simp only [coerceMessage, hjs] at hc
      injection hc with h2
      exact h2.symm
    | obj cn ie fs =>
      simp only [coerceMessage, hjs] at hc
      injection hc with h2
      exact h2.symm
    | ref a =>
      simp only [coerceMessage, hjs] at hc
      injection hc with h2
      exact h2.symm
  · intro p hle hmd hnn hbuild
    rw [buildLogPayload_production_nonerror env l hl "log" rfl message mv
      optionalParams hc] at hbuild
    injection hbuild with hp
    subst hp
    refine lookup_filter_of_lookup _ _ _ mv ?_ (by simp [hnn])
    rw [lookup_spreadMerge, hmd, lookup_spreadMerge, hle]
    rfl

/-- Witness for the amended C5: a concrete non-string, acyclic message is
serialised to JSON text and none of the four methods throw on it. -/
theorem C5_amended_witness :
    coerceMessage sampleEnv.heap (.obj "Object" false [("a", .num 1)]) =
      .ok (.str "\x7b\"a\":1\x7d") ∧
    (BaseLogger.log sampleEnv sampleParentLogger
      (.obj "Object" false [("a", .num 1)]) .undefined).isOk = true ∧
    (BaseLogger.error sampleEnv sampleParentLogger
      (.obj "Object" false [("a", .num 1)]) .undefined .undefined).isOk = true := by
  have hmain := C5_amended_serializable_no_throw sampleEnv sampleParentLogger
    rfl (.obj "Object" false [("a", .num 1)]) .undefined .undefined
    (.str "\x7b\"a\":1\x7d") rfl
  obtain ⟨lg, hlg⟩ := hmain.1
  obtain ⟨er, her⟩ := hmain.2.2.2.1
  refine ⟨rfl, ?_, ?_⟩
  · rw [hlg]; rfl
  · rw [her]; rfl
